import Mathlib

/-!
# rubywmq: the MQ library loader and the method registration table

A shallow embedding of `ext/wmq_mq_load.c` (`Queue_manager_mq_load`,
`Queue_manager_mq_free` and the three helpers `MQ_LOAD`, `MQ_RELEASE`,
`MQ_FUNCTION`) and of `ext/wmq.c` (`Init_wmq`).

Pointers are natural numbers, `0` being the null pointer.  The dynamic loader
(`dlopen`, `dlerror`, `dlsym`) is an oracle; every call that leaves the process
(`dlopen`, `dlerror`, `dlsym`, `dlclose`, `printf`) is appended to a trace.
`rb_raise` does not return: it ends the running function and leaves the
queue-manager structure as it is at that moment.
-/

namespace WMQ

/-! ## Data model -/

/-- Constants that come from the platform headers and the build configuration:
the shared-object extension `SOEXT` and the two `dlopen` flags. -/
structure Platform where
  SOEXT : String
  RTLD_LAZY : Nat
  RTLD_GLOBAL : Nat
  deriving DecidableEq, Repr

/-- Modelled from the spec: the declaration of the queue-manager structure lives
in `wmq.h`, which is not among the sources.  The members listed here are the ones
that `wmq_mq_load.c` reads or writes: the transport mode, the trace level, the
library handle and the 25 entry points. -/
structure QUEUE_MANAGER where
  is_client_conn : Int
  trace_level : Int
  mq_lib_handle : Nat
  MQCONNX : Nat
  MQCONN : Nat
  MQDISC : Nat
  MQBEGIN : Nat
  MQBACK : Nat
  MQCMIT : Nat
  MQPUT1 : Nat
  MQOPEN : Nat
  MQCLOSE : Nat
  MQGET : Nat
  MQPUT : Nat
  MQINQ : Nat
  MQSET : Nat
  mqCreateBag : Nat
  mqDeleteBag : Nat
  mqClearBag : Nat
  mqExecute : Nat
  mqCountItems : Nat
  mqInquireBag : Nat
  mqInquireItemInfo : Nat
  mqInquireInteger : Nat
  mqInquireString : Nat
  mqAddInquiry : Nat
  mqAddInteger : Nat
  mqAddString : Nat
  deriving DecidableEq, Repr

/-- The dynamic loader as an oracle: what `dlopen` returns for a library name and
flags, what `dlerror` reports, and what `dlsym` returns for a handle and a symbol. -/
structure DynamicLoader where
  dlopen : String → Nat → Nat
  dlerror : String
  dlsym : Nat → String → Nat

/-- One observable call made by the loader. -/
inductive Event where
  | dlopen (library : String) (flags : Nat) (handle : Nat)
  | dlerror (text : String)
  | dlsym (handle : Nat) (symbol : String) (address : Nat)
  | dlclose (handle : Nat)
  | printf (text : String)
  deriving DecidableEq, Repr

/-- The state the two functions work on: the structure behind `pqm` and the calls
made so far, oldest first. -/
structure World where
  pqm : QUEUE_MANAGER
  trace : List Event
  deriving DecidableEq, Repr

/-- How a C function ends: it returns a value, or `rb_raise` leaves it with a
message.  Both carry the state at that moment. -/
inductive Result (α : Type) where
  | ok (value : α) (world : World)
  | raise (message : String) (world : World)
  deriving DecidableEq, Repr

/-- The state at the end of the call. -/
def Result.world {α : Type} : Result α → World
  | .ok _ w => w
  | .raise _ w => w

/-- The message of the exception, when one was raised. -/
def Result.raised {α : Type} : Result α → Option String
  | .ok _ _ => none
  | .raise m _ => some m

/-- A C statement sequence over the state, which may end in `rb_raise`. -/
def Rb (α : Type) : Type := World → Result α

instance : Monad Rb where
  pure a := fun w => Result.ok a w
  bind x f := fun w =>
    match x w with
    | Result.ok a w1 => f a w1
    | Result.raise m w1 => Result.raise m w1

/-! ## Primitive statements -/

/-- Reads `*pqm`. -/
def readPqm : Rb QUEUE_MANAGER := fun w => Result.ok w.pqm w

/-- Assigns to members of `*pqm`. -/
def writePqm (f : QUEUE_MANAGER → QUEUE_MANAGER) : Rb Unit :=
  fun w => Result.ok () { w with pqm := f w.pqm }

/-- Appends a call to the trace. -/
def emit (e : Event) : Rb Unit :=
  fun w => Result.ok () { w with trace := w.trace ++ [e] }

/-- The call `printf(text)`, format already expanded. -/
def printf (text : String) : Rb Unit := emit (Event.printf text)

/-- The call `rb_raise(wmq_exception, message)`, format already expanded. -/
def rb_raise {α : Type} (message : String) : Rb α := fun w => Result.raise message w

/-- The call `dlopen(library, flags)`. -/
def dlopen (dl : DynamicLoader) (library : String) (flags : Nat) : Rb Nat := do
  let handle := dl.dlopen library flags
  emit (Event.dlopen library flags handle)
  pure handle

/-- The call `dlerror()`. -/
def dlerror (dl : DynamicLoader) : Rb String := do
  emit (Event.dlerror dl.dlerror)
  pure dl.dlerror

/-- The call `dlsym(handle, symbol)`. -/
def dlsym (dl : DynamicLoader) (handle : Nat) (symbol : String) : Rb Nat := do
  let address := dl.dlsym handle symbol
  emit (Event.dlsym handle symbol address)
  pure address

/-- The call `dlclose(handle)`; its return value is not looked at. -/
def dlclose (handle : Nat) : Rb Unit := emit (Event.dlclose handle)

/-! ## The members that `MQ_FUNCTION` is applied to

The argument `FUNC` of `MQ_FUNCTION` is used twice: as the member `pqm->FUNC` and,
stringified, as the symbol name `#FUNC`.  A `Member` packs both. -/

/-- A function-pointer member of the structure together with its name. -/
structure Member where
  name : String
  get : QUEUE_MANAGER → Nat
  set : QUEUE_MANAGER → Nat → QUEUE_MANAGER

namespace FUNC

def MQCONNX : Member := ⟨"MQCONNX", fun pqm => pqm.MQCONNX, fun pqm p => { pqm with MQCONNX := p }⟩
def MQCONN : Member := ⟨"MQCONN", fun pqm => pqm.MQCONN, fun pqm p => { pqm with MQCONN := p }⟩
def MQDISC : Member := ⟨"MQDISC", fun pqm => pqm.MQDISC, fun pqm p => { pqm with MQDISC := p }⟩
def MQBEGIN : Member := ⟨"MQBEGIN", fun pqm => pqm.MQBEGIN, fun pqm p => { pqm with MQBEGIN := p }⟩
def MQBACK : Member := ⟨"MQBACK", fun pqm => pqm.MQBACK, fun pqm p => { pqm with MQBACK := p }⟩
def MQCMIT : Member := ⟨"MQCMIT", fun pqm => pqm.MQCMIT, fun pqm p => { pqm with MQCMIT := p }⟩
def MQPUT1 : Member := ⟨"MQPUT1", fun pqm => pqm.MQPUT1, fun pqm p => { pqm with MQPUT1 := p }⟩
def MQOPEN : Member := ⟨"MQOPEN", fun pqm => pqm.MQOPEN, fun pqm p => { pqm with MQOPEN := p }⟩
def MQCLOSE : Member := ⟨"MQCLOSE", fun pqm => pqm.MQCLOSE, fun pqm p => { pqm with MQCLOSE := p }⟩
def MQGET : Member := ⟨"MQGET", fun pqm => pqm.MQGET, fun pqm p => { pqm with MQGET := p }⟩
def MQPUT : Member := ⟨"MQPUT", fun pqm => pqm.MQPUT, fun pqm p => { pqm with MQPUT := p }⟩
def MQINQ : Member := ⟨"MQINQ", fun pqm => pqm.MQINQ, fun pqm p => { pqm with MQINQ := p }⟩
def MQSET : Member := ⟨"MQSET", fun pqm => pqm.MQSET, fun pqm p => { pqm with MQSET := p }⟩
def mqCreateBag : Member :=
  ⟨"mqCreateBag", fun pqm => pqm.mqCreateBag, fun pqm p => { pqm with mqCreateBag := p }⟩
def mqDeleteBag : Member :=
  ⟨"mqDeleteBag", fun pqm => pqm.mqDeleteBag, fun pqm p => { pqm with mqDeleteBag := p }⟩
def mqClearBag : Member :=
  ⟨"mqClearBag", fun pqm => pqm.mqClearBag, fun pqm p => { pqm with mqClearBag := p }⟩
def mqExecute : Member :=
  ⟨"mqExecute", fun pqm => pqm.mqExecute, fun pqm p => { pqm with mqExecute := p }⟩
def mqCountItems : Member :=
  ⟨"mqCountItems", fun pqm => pqm.mqCountItems, fun pqm p => { pqm with mqCountItems := p }⟩
def mqInquireBag : Member :=
  ⟨"mqInquireBag", fun pqm => pqm.mqInquireBag, fun pqm p => { pqm with mqInquireBag := p }⟩
def mqInquireItemInfo : Member :=
  ⟨"mqInquireItemInfo", fun pqm => pqm.mqInquireItemInfo,
    fun pqm p => { pqm with mqInquireItemInfo := p }⟩
def mqInquireInteger : Member :=
  ⟨"mqInquireInteger", fun pqm => pqm.mqInquireInteger,
    fun pqm p => { pqm with mqInquireInteger := p }⟩
def mqInquireString : Member :=
  ⟨"mqInquireString", fun pqm => pqm.mqInquireString,
    fun pqm p => { pqm with mqInquireString := p }⟩
def mqAddInquiry : Member :=
  ⟨"mqAddInquiry", fun pqm => pqm.mqAddInquiry, fun pqm p => { pqm with mqAddInquiry := p }⟩
def mqAddInteger : Member :=
  ⟨"mqAddInteger", fun pqm => pqm.mqAddInteger, fun pqm p => { pqm with mqAddInteger := p }⟩
def mqAddString : Member :=
  ⟨"mqAddString", fun pqm => pqm.mqAddString, fun pqm p => { pqm with mqAddString := p }⟩

end FUNC

/-! ## `wmq_mq_load.c` -/

/-- The helper `MQ_LOAD(LIBRARY)`: opens the library and raises when the handle is
null.  The handle is a local variable of the enclosing block. -/
def MQ_LOAD (P : Platform) (dl : DynamicLoader) (LIBRARY : String) : Rb Nat := do
  let handle ← dlopen dl LIBRARY (P.RTLD_LAZY ||| P.RTLD_GLOBAL)
  if handle = 0 then
    let rc ← dlerror dl
    rb_raise ("WMQ::QueueManager#connect(). Failed to load MQ Library:" ++ LIBRARY
      ++ ", rc=" ++ rc)
  else
    pure handle

/-- The helper `MQ_RELEASE`: closes the handle stored in the structure. -/
def MQ_RELEASE : Rb Unit := do
  let pqm ← readPqm
  dlclose pqm.mq_lib_handle

/-- The helper `MQ_FUNCTION(FUNC, CAST)`: stores the address of the symbol `#FUNC`
in `pqm->FUNC` and raises when the stored address is null. -/
def MQ_FUNCTION (dl : DynamicLoader) (handle : Nat) (FUNC : Member) : Rb Unit := do
  let address ← dlsym dl handle FUNC.name
  writePqm (fun pqm => FUNC.set pqm address)
  let pqm ← readPqm
  if FUNC.get pqm = 0 then
    rb_raise ("Failed to find API " ++ FUNC.name ++ " in MQ Library")
  else
    pure ()

/-- The library name chosen at the top of `Queue_manager_mq_load`, with the trace
line that goes with it. -/
def selectLibrary (P : Platform) : Rb String := do
  let pqm ← readPqm
  if pqm.is_client_conn ≠ 0 then
    let library := "libmqic_r" ++ P.SOEXT
    (if pqm.trace_level ≠ 0 then
      printf ("WMQ::QueueManager#connect() Loading MQ Client Library:" ++ library ++ "\n")
    else pure ())
    pure library
  else
    let library := "libmqm_r" ++ P.SOEXT
    (if pqm.trace_level ≠ 0 then
      printf ("WMQ::QueueManager#connect() Loading MQ Server Library:" ++ library ++ "\n")
    else pure ())
    pure library

/-- The function `Queue_manager_mq_load(pqm)`. -/
def Queue_manager_mq_load (P : Platform) (dl : DynamicLoader) : Rb Unit := do
  let library ← selectLibrary P
  let handle ← MQ_LOAD P dl library
  let pqm ← readPqm
  (if pqm.trace_level > 1 then
    printf ("WMQ::QueueManager#connect() MQ Library:" ++ library ++ " Loaded successfully\n")
  else pure ())
  MQ_FUNCTION dl handle FUNC.MQCONNX
  MQ_FUNCTION dl handle FUNC.MQCONN
  MQ_FUNCTION dl handle FUNC.MQDISC
  MQ_FUNCTION dl handle FUNC.MQBEGIN
  MQ_FUNCTION dl handle FUNC.MQBACK
  MQ_FUNCTION dl handle FUNC.MQCMIT
  MQ_FUNCTION dl handle FUNC.MQPUT1
  MQ_FUNCTION dl handle FUNC.MQOPEN
  MQ_FUNCTION dl handle FUNC.MQCLOSE
  MQ_FUNCTION dl handle FUNC.MQGET
  MQ_FUNCTION dl handle FUNC.MQPUT
  MQ_FUNCTION dl handle FUNC.MQINQ
  MQ_FUNCTION dl handle FUNC.MQSET
  MQ_FUNCTION dl handle FUNC.mqCreateBag
  MQ_FUNCTION dl handle FUNC.mqDeleteBag
  MQ_FUNCTION dl handle FUNC.mqClearBag
  MQ_FUNCTION dl handle FUNC.mqExecute
  MQ_FUNCTION dl handle FUNC.mqCountItems
  MQ_FUNCTION dl handle FUNC.mqInquireBag
  MQ_FUNCTION dl handle FUNC.mqInquireItemInfo
  MQ_FUNCTION dl handle FUNC.mqInquireInteger
  MQ_FUNCTION dl handle FUNC.mqInquireString
  MQ_FUNCTION dl handle FUNC.mqAddInquiry
  MQ_FUNCTION dl handle FUNC.mqAddInteger
  MQ_FUNCTION dl handle FUNC.mqAddString
  writePqm (fun pqm => { pqm with mq_lib_handle := handle })
  let pqm ← readPqm
  (if pqm.trace_level > 1 then
    printf "WMQ::QueueManager#connect() MQ API's loaded successfully\n"
  else pure ())

/-- The function `Queue_manager_mq_free(pqm)`. -/
def Queue_manager_mq_free : Rb Unit := do
  let pqm ← readPqm
  if pqm.mq_lib_handle ≠ 0 then
    (if pqm.trace_level > 1 then
      printf "WMQ::QueueManager#gc() Releasing MQ Library\n"
    else pure ())
    MQ_RELEASE
    writePqm (fun pqm => { pqm with mq_lib_handle := 0 })
  else
    pure ()

/-! ## `wmq.c` -/

/-- A Ruby object reference.  Modules and classes are referred to by their constant
path, such as "WMQ::Queue". -/
abbrev VALUE : Type := String

/-- The class `Object` of the interpreter. -/
def rb_cObject : VALUE := "Object"

/-- The class `RuntimeError` of the interpreter. -/
def rb_eRuntimeError : VALUE := "RuntimeError"

/-- One call that `Init_wmq` makes into the interpreter or into the other files of the
extension.  C functions are referred to by name; `argc` is the arity given at
registration, `-1` standing for a variable number of arguments. -/
inductive Registration where
  | define_module (name : String)
  | define_class_under (outer : VALUE) (name : String) (super : VALUE)
  | define_alloc_func (klass : VALUE) (func : String)
  | define_singleton_method (obj : VALUE) (name : String) (func : String) (argc : Int)
  | define_method (klass : VALUE) (name : String) (func : String) (argc : Int)
  | call (func : String)
  deriving DecidableEq, Repr

/-- Statements of `Init_wmq`: they append to the list of registrations made so far. -/
abbrev Ruby (α : Type) : Type := StateM (List Registration) α

/-- The call `rb_define_module(name)`. -/
def rb_define_module (name : String) : Ruby VALUE := do
  modify (fun t => t ++ [Registration.define_module name])
  pure name

/-- The call `rb_define_class_under(outer, name, super)`. -/
def rb_define_class_under (outer : VALUE) (name : String) (super : VALUE) : Ruby VALUE := do
  modify (fun t => t ++ [Registration.define_class_under outer name super])
  pure (outer ++ "::" ++ name)

/-- The call `rb_define_alloc_func(klass, func)`. -/
def rb_define_alloc_func (klass : VALUE) (func : String) : Ruby Unit :=
  modify (fun t => t ++ [Registration.define_alloc_func klass func])

/-- The call `rb_define_singleton_method(obj, name, func, argc)`. -/
def rb_define_singleton_method (obj : VALUE) (name : String) (func : String) (argc : Int) :
    Ruby Unit :=
  modify (fun t => t ++ [Registration.define_singleton_method obj name func argc])

/-- The call `rb_define_method(klass, name, func, argc)`. -/
def rb_define_method (klass : VALUE) (name : String) (func : String) (argc : Int) : Ruby Unit :=
  modify (fun t => t ++ [Registration.define_method klass name func argc])

/-- A call of a function defined in another file of the extension. -/
def callExtern (func : String) : Ruby Unit :=
  modify (fun t => t ++ [Registration.call func])

/-- The global variables of `wmq.c`. -/
structure Globals where
  wmq_queue : VALUE
  wmq_queue_struct : VALUE
  wmq_queue_manager : VALUE
  wmq_message : VALUE
  wmq_exception : VALUE
  deriving DecidableEq, Repr

/-- The function `Init_wmq()`; it returns the values it has assigned to the globals. -/
def Init_wmq : Ruby Globals := do
  let wmq ← rb_define_module "WMQ"

  let wmq_queue_manager ← rb_define_class_under wmq "QueueManager" rb_cObject
  rb_define_alloc_func wmq_queue_manager "QUEUE_MANAGER_alloc"
  rb_define_singleton_method wmq_queue_manager "connect" "QueueManager_singleton_connect" (-1)
  rb_define_method wmq_queue_manager "initialize" "QueueManager_initialize" 1
  rb_define_method wmq_queue_manager "connect" "QueueManager_connect" 0
  rb_define_method wmq_queue_manager "disconnect" "QueueManager_disconnect" 0
  rb_define_method wmq_queue_manager "open_queue" "QueueManager_open_queue" (-1)
  rb_define_method wmq_queue_manager "access_queue" "QueueManager_open_queue" (-1)
  rb_define_method wmq_queue_manager "begin" "QueueManager_begin" 0
  rb_define_method wmq_queue_manager "commit" "QueueManager_commit" 0
  rb_define_method wmq_queue_manager "backout" "QueueManager_backout" 0
  rb_define_method wmq_queue_manager "put" "QueueManager_put" 1
  rb_define_method wmq_queue_manager "comp_code" "QueueManager_comp_code" 0
  rb_define_method wmq_queue_manager "reason_code" "QueueManager_reason_code" 0
  rb_define_method wmq_queue_manager "reason" "QueueManager_reason" 0
  rb_define_method wmq_queue_manager "exception_on_error" "QueueManager_exception_on_error" 0
  rb_define_method wmq_queue_manager "connected?" "QueueManager_connected_q" 0
  rb_define_method wmq_queue_manager "name" "QueueManager_name" 0
  rb_define_method wmq_queue_manager "execute" "QueueManager_execute" 1

  let wmq_queue ← rb_define_class_under wmq "Queue" rb_cObject
  rb_define_singleton_method wmq_queue "open" "Queue_singleton_open" (-1)
  rb_define_method wmq_queue "initialize" "Queue_initialize" 1
  rb_define_method wmq_queue "open" "Queue_open" 0
  rb_define_method wmq_queue "close" "Queue_close" 0
  rb_define_method wmq_queue "put" "Queue_put" 1
  rb_define_method wmq_queue "get" "Queue_get" 1
  rb_define_method wmq_queue "each" "Queue_each" (-1)
  rb_define_method wmq_queue "name" "Queue_name" 0
  rb_define_method wmq_queue "comp_code" "Queue_comp_code" 0
  rb_define_method wmq_queue "reason_code" "Queue_reason_code" 0
  rb_define_method wmq_queue "reason" "Queue_reason" 0
  rb_define_method wmq_queue "open?" "Queue_open_q" 0

  let wmq_queue_struct ← rb_define_class_under wmq "QueueStruct" rb_cObject
  rb_define_alloc_func wmq_queue_struct "QueueStruct_alloc"

  let wmq_message ← rb_define_class_under wmq "Message" rb_cObject
  rb_define_method wmq_message "initialize" "Message_initialize" (-1)
  rb_define_method wmq_message "clear" "Message_clear" 0

  let wmq_exception ← rb_define_class_under wmq "WMQException" rb_eRuntimeError

  callExtern "Message_id_init"
  callExtern "Queue_id_init"
  callExtern "QueueManager_id_init"
  callExtern "QueueManager_selector_id_init"
  callExtern "QueueManager_command_id_init"
  callExtern "wmq_structs_id_init"
  pure ⟨wmq_queue, wmq_queue_struct, wmq_queue_manager, wmq_message, wmq_exception⟩

/-- The registrations made by `Init_wmq` on a fresh interpreter, in order. -/
def registrationTable : List Registration := (Init_wmq.run []).2

/-- The names and arities registered with `rb_define_method` on a class. -/
def instanceMethods (table : List Registration) (klass : VALUE) : List (String × Int) :=
  table.filterMap (fun r =>
    match r with
    | Registration.define_method k name _ argc => if k = klass then some (name, argc) else none
    | _ => none)

/-- The names and arities registered with `rb_define_singleton_method` on an object. -/
def singletonMethods (table : List Registration) (obj : VALUE) : List (String × Int) :=
  table.filterMap (fun r =>
    match r with
    | Registration.define_singleton_method o name _ argc =>
      if o = obj then some (name, argc) else none
    | _ => none)

/-- The arities under which a name is registered as an instance method of a class. -/
def arities (table : List Registration) (klass : VALUE) (name : String) : List Int :=
  ((instanceMethods table klass).filter (fun p => p.1 = name)).map Prod.snd

/-! ## Reading the code as a whole -/

/-- The 25 applications of `MQ_FUNCTION` in `Queue_manager_mq_load`, in source order. -/
def entryPoints : List Member :=
  [FUNC.MQCONNX, FUNC.MQCONN, FUNC.MQDISC, FUNC.MQBEGIN, FUNC.MQBACK, FUNC.MQCMIT, FUNC.MQPUT1,
   FUNC.MQOPEN, FUNC.MQCLOSE, FUNC.MQGET, FUNC.MQPUT, FUNC.MQINQ, FUNC.MQSET,
   FUNC.mqCreateBag, FUNC.mqDeleteBag, FUNC.mqClearBag, FUNC.mqExecute, FUNC.mqCountItems,
   FUNC.mqInquireBag, FUNC.mqInquireItemInfo, FUNC.mqInquireInteger, FUNC.mqInquireString,
   FUNC.mqAddInquiry, FUNC.mqAddInteger, FUNC.mqAddString]

/-- Runs `MQ_FUNCTION` on each member of a list, in order, and then the statements `k`. -/
def resolveThen {α : Type} (dl : DynamicLoader) (handle : Nat) : List Member → Rb α → Rb α
  | [], k => k
  | m :: ms, k => MQ_FUNCTION dl handle m >>= fun _ => resolveThen dl handle ms k

/-- The structure after the members of a list have been assigned what `dlsym` returns. -/
def bound (dl : DynamicLoader) (handle : Nat) (ms : List Member) (pqm : QUEUE_MANAGER) :
    QUEUE_MANAGER :=
  ms.foldl (fun s m => m.set s (dl.dlsym handle m.name)) pqm

/-- The `dlsym` calls made for the members of a list. -/
def lookups (dl : DynamicLoader) (handle : Nat) (ms : List Member) : List Event :=
  ms.map (fun m => Event.dlsym handle m.name (dl.dlsym handle m.name))

/-- The library name that `Queue_manager_mq_load` computes into `library`. -/
def library (P : Platform) (pqm : QUEUE_MANAGER) : String :=
  if pqm.is_client_conn ≠ 0 then "libmqic_r" ++ P.SOEXT else "libmqm_r" ++ P.SOEXT

/-- The handle that `dlopen` returns to `Queue_manager_mq_load`. -/
def openedHandle (P : Platform) (dl : DynamicLoader) (pqm : QUEUE_MANAGER) : Nat :=
  dl.dlopen (library P pqm) (P.RTLD_LAZY ||| P.RTLD_GLOBAL)

/-- The line printed before the library is opened, when tracing is on. -/
def loadingBanner (P : Platform) (pqm : QUEUE_MANAGER) : List Event :=
  if pqm.trace_level ≠ 0 then
    [Event.printf (if pqm.is_client_conn ≠ 0 then
      "WMQ::QueueManager#connect() Loading MQ Client Library:" ++ library P pqm ++ "\n"
    else
      "WMQ::QueueManager#connect() Loading MQ Server Library:" ++ library P pqm ++ "\n")]
  else []

/-- The line printed after the library has been opened, when the trace level is above 1. -/
def loadedBanner (P : Platform) (pqm : QUEUE_MANAGER) : List Event :=
  if pqm.trace_level > 1 then
    [Event.printf ("WMQ::QueueManager#connect() MQ Library:" ++ library P pqm
      ++ " Loaded successfully\n")]
  else []

/-- The line printed at the end of a load, when the trace level is above 1. -/
def doneBanner (pqm : QUEUE_MANAGER) : List Event :=
  if pqm.trace_level > 1 then
    [Event.printf "WMQ::QueueManager#connect() MQ API's loaded successfully\n"]
  else []

/-- The state of a load right before the first `MQ_FUNCTION`, when the library opened. -/
def afterOpen (P : Platform) (dl : DynamicLoader) (w : World) : World :=
  ⟨w.pqm, w.trace ++ loadingBanner P w.pqm ++
    [Event.dlopen (library P w.pqm) (P.RTLD_LAZY ||| P.RTLD_GLOBAL) (openedHandle P dl w.pqm)] ++
    loadedBanner P w.pqm⟩

/-- The line printed before the library is released, when the trace level is above 1. -/
def releaseBanner (pqm : QUEUE_MANAGER) : List Event :=
  if pqm.trace_level > 1 then
    [Event.printf "WMQ::QueueManager#gc() Releasing MQ Library\n"]
  else []

/-- The handles returned by the `dlopen` calls of a trace, oldest first. -/
def opens (trace : List Event) : List Nat :=
  trace.filterMap (fun e => match e with | Event.dlopen _ _ h => some h | _ => none)

/-- The library names and flags passed to the `dlopen` calls of a trace, oldest first. -/
def openArgs (trace : List Event) : List (String × Nat) :=
  trace.filterMap (fun e => match e with | Event.dlopen l f _ => some (l, f) | _ => none)

/-- The handles passed to the `dlclose` calls of a trace, oldest first. -/
def closes (trace : List Event) : List Nat :=
  trace.filterMap (fun e => match e with | Event.dlclose h => some h | _ => none)

/-- What a member of the structure must satisfy for the reasoning below: reading
back what was assigned, and leaving the three plain members alone. -/
structure Member.Sound (m : Member) : Prop where
  get_set : ∀ s v, m.get (m.set s v) = v
  keeps_handle : ∀ s v, (m.set s v).mq_lib_handle = s.mq_lib_handle
  keeps_trace_level : ∀ s v, (m.set s v).trace_level = s.trace_level
  keeps_client_conn : ∀ s v, (m.set s v).is_client_conn = s.is_client_conn

/-- Assigning to one member does not change what the other holds, both ways. -/
def Member.Apart (a b : Member) : Prop :=
  (∀ s v, a.get (b.set s v) = a.get s) ∧ (∀ s v, b.get (a.set s v) = b.get s)

/-- A call on a queue manager: a load under some platform and loader, or a free. -/
inductive Call where
  | load (P : Platform) (dl : DynamicLoader)
  | free

/-- The state after a call; an exception raised by the call leaves the state as it
was at the `rb_raise`. -/
def Call.run : Call → World → World
  | Call.load P dl, w => (Queue_manager_mq_load P dl w).world
  | Call.free, w => (Queue_manager_mq_free w).world

/-- The state after a sequence of calls on the same queue manager. -/
def runCalls (cs : List Call) (w : World) : World :=
  cs.foldl (fun w c => c.run w) w

/-! ## Concrete inputs -/

/-- A manager on which nothing has been loaded: server mode, no tracing, all pointers null. -/
def freshManager : QUEUE_MANAGER :=
  ⟨0, 0, 0, 0, 0, 0, 0, 0, 0, 0, 0, 0, 0, 0, 0, 0, 0, 0, 0, 0, 0, 0, 0, 0, 0, 0, 0, 0⟩

/-- A platform with the extension ".so", `RTLD_LAZY = 1` and `RTLD_GLOBAL = 256`. -/
def linux : Platform := ⟨".so", 1, 256⟩

/-- A loader whose library opens and has every symbol. -/
def completeLoader : DynamicLoader :=
  ⟨fun _ _ => 4096, "", fun _ symbol => symbol.length + 1⟩

/-- A loader whose library opens and has every symbol but `MQCONN`. -/
def loaderWithoutMQCONN : DynamicLoader :=
  ⟨fun _ _ => 4096, "undefined symbol: MQCONN", fun _ symbol => if symbol = "MQCONN" then 0 else 7⟩

/-- A loader that cannot open any library. -/
def loaderWithoutLibrary : DynamicLoader :=
  ⟨fun _ _ => 0, "cannot open shared object file", fun _ _ => 0⟩

/-! ## Lemmas -/

theorem bind_apply {α β : Type} (x : Rb α) (f : α → Rb β) (w : World) :
    (x >>= f) w = match x w with
      | Result.ok a w1 => f a w1
      | Result.raise m w1 => Result.raise m w1 := rfl

theorem pure_apply {α : Type} (a : α) (w : World) : (pure a : Rb α) w = Result.ok a w := rfl

theorem load_eq (P : Platform) (dl : DynamicLoader) :
    Queue_manager_mq_load P dl =
      (selectLibrary P >>= fun library => MQ_LOAD P dl library >>= fun handle =>
        (readPqm >>= fun pqm => (if pqm.trace_level > 1 then
          printf ("WMQ::QueueManager#connect() MQ Library:" ++ library ++ " Loaded successfully\n")
          else pure ()) >>= fun _ =>
        resolveThen dl handle entryPoints
          (writePqm (fun pqm => { pqm with mq_lib_handle := handle }) >>= fun _ =>
            readPqm >>= fun pqm => if pqm.trace_level > 1 then
              printf "WMQ::QueueManager#connect() MQ API's loaded successfully\n"
              else pure ()))) := rfl

theorem MQ_FUNCTION_apply (dl : DynamicLoader) (handle : Nat) (m : Member) (w : World) :
    MQ_FUNCTION dl handle m w =
      if m.get (m.set w.pqm (dl.dlsym handle m.name)) = 0 then
        Result.raise ("Failed to find API " ++ m.name ++ " in MQ Library")
          ⟨m.set w.pqm (dl.dlsym handle m.name),
            w.trace ++ [Event.dlsym handle m.name (dl.dlsym handle m.name)]⟩
      else
        Result.ok ()
          ⟨m.set w.pqm (dl.dlsym handle m.name),
            w.trace ++ [Event.dlsym handle m.name (dl.dlsym handle m.name)]⟩ := by
  simp only [MQ_FUNCTION, dlsym, emit, writePqm, readPqm, rb_raise, bind_apply, pure_apply]
  split <;> rfl

theorem bound_nil (dl : DynamicLoader) (h : Nat) (s : QUEUE_MANAGER) : bound dl h [] s = s := rfl

theorem bound_cons (dl : DynamicLoader) (h : Nat) (m : Member) (ms : List Member)
    (s : QUEUE_MANAGER) :
    bound dl h (m :: ms) s = bound dl h ms (m.set s (dl.dlsym h m.name)) := rfl

theorem bound_append (dl : DynamicLoader) (h : Nat) (xs ys : List Member) (s : QUEUE_MANAGER) :
    bound dl h (xs ++ ys) s = bound dl h ys (bound dl h xs s) := by
  simp [bound, List.foldl_append]

/-- When every member of the list resolves, all are assigned and `k` runs. -/
theorem resolveThen_all {α : Type} (dl : DynamicLoader) (h : Nat) (k : Rb α) :
    ∀ (ms : List Member) (w : World), (∀ m ∈ ms, m.Sound) →
      (∀ m ∈ ms, dl.dlsym h m.name ≠ 0) →
      resolveThen dl h ms k w = k ⟨bound dl h ms w.pqm, w.trace ++ lookups dl h ms⟩ := by
  intro ms
  induction ms with
  | nil => intro w _ _; simp [resolveThen, bound, lookups]
  | cons m ms ih =>
    intro w hs hr
    have hm : m.get (m.set w.pqm (dl.dlsym h m.name)) ≠ 0 := by
      rw [(hs m (List.mem_cons_self _ _)).get_set]; exact hr m (List.mem_cons_self _ _)
    simp only [resolveThen, bind_apply, MQ_FUNCTION_apply, if_neg hm]
    rw [ih _ (fun x hx => hs x (List.mem_cons_of_mem _ hx))
      (fun x hx => hr x (List.mem_cons_of_mem _ hx))]
    simp [bound_cons, lookups]

/-- When a member does not resolve and all before it do, the run ends at that member. -/
theorem resolveThen_first {α : Type} (dl : DynamicLoader) (h : Nat) (k : Rb α) (m : Member)
    (post : List Member) :
    ∀ (pre : List Member) (w : World), (∀ x ∈ pre, x.Sound) → m.Sound →
      (∀ x ∈ pre, dl.dlsym h x.name ≠ 0) → dl.dlsym h m.name = 0 →
      resolveThen dl h (pre ++ m :: post) k w =
        Result.raise ("Failed to find API " ++ m.name ++ " in MQ Library")
          ⟨bound dl h (pre ++ [m]) w.pqm, w.trace ++ lookups dl h (pre ++ [m])⟩ := by
  intro pre
  induction pre with
  | nil =>
    intro w _ hm _ h0
    have hz : m.get (m.set w.pqm (dl.dlsym h m.name)) = 0 := by rw [hm.get_set]; exact h0
    simp only [List.nil_append, resolveThen, bind_apply, MQ_FUNCTION_apply, if_pos hz]
    simp [bound, lookups]
  | cons x pre ih =>
    intro w hs hm hr h0
    have hx : x.get (x.set w.pqm (dl.dlsym h x.name)) ≠ 0 := by
      rw [(hs x (List.mem_cons_self _ _)).get_set]; exact hr x (List.mem_cons_self _ _)
    rw [List.cons_append]
    simp only [resolveThen, bind_apply, MQ_FUNCTION_apply, if_neg hx]
    rw [ih _ (fun y hy => hs y (List.mem_cons_of_mem _ hy)) hm
      (fun y hy => hr y (List.mem_cons_of_mem _ hy)) h0]
    simp [bound_cons, lookups]

/-- Either every element satisfies `p`, or there is a first one that does not. -/
theorem all_or_first {α : Type} (p : α → Prop) :
    ∀ l : List α, (∀ x ∈ l, p x) ∨
      ∃ pre m post, l = pre ++ m :: post ∧ (∀ x ∈ pre, p x) ∧ ¬ p m := by
  intro l
  induction l with
  | nil => left; simp
  | cons a l ih =>
    by_cases ha : p a
    · rcases ih with h | ⟨pre, m, post, rfl, hp, hm⟩
      · left; intro x hx
        rcases List.mem_cons.mp hx with rfl | hx
        · exact ha
        · exact h x hx
      · right
        refine ⟨a :: pre, m, post, rfl, ?_, hm⟩
        intro x hx
        rcases List.mem_cons.mp hx with rfl | hx
        · exact ha
        · exact hp x hx
    · right; exact ⟨[], a, l, rfl, by simp, ha⟩

theorem entryPoints_sound : ∀ m ∈ entryPoints, m.Sound := by
  intro m hm
  simp only [entryPoints, List.mem_cons, List.mem_singleton, List.not_mem_nil, or_false] at hm
  rcases hm with h | h | h | h | h | h | h | h | h | h | h | h | h | h | h | h | h | h | h | h |
    h | h | h | h | h <;> subst h <;> exact ⟨fun _ _ => rfl, fun _ _ => rfl, fun _ _ => rfl, fun _ _ => rfl⟩

theorem entryPoints_apart : entryPoints.Pairwise Member.Apart := by
  simp only [entryPoints, List.pairwise_cons, List.mem_cons, List.mem_singleton,
    List.not_mem_nil, forall_eq_or_imp, forall_eq, Member.Apart, List.Pairwise.nil]
  simp [FUNC.MQCONNX, FUNC.MQCONN, FUNC.MQDISC, FUNC.MQBEGIN, FUNC.MQBACK, FUNC.MQCMIT,
    FUNC.MQPUT1, FUNC.MQOPEN, FUNC.MQCLOSE, FUNC.MQGET, FUNC.MQPUT, FUNC.MQINQ, FUNC.MQSET,
    FUNC.mqCreateBag, FUNC.mqDeleteBag, FUNC.mqClearBag, FUNC.mqExecute, FUNC.mqCountItems,
    FUNC.mqInquireBag, FUNC.mqInquireItemInfo, FUNC.mqInquireInteger, FUNC.mqInquireString,
    FUNC.mqAddInquiry, FUNC.mqAddInteger, FUNC.mqAddString]


theorem selectLibrary_apply (P : Platform) (w : World) :
    selectLibrary P w = Result.ok (library P w.pqm) ⟨w.pqm, w.trace ++ loadingBanner P w.pqm⟩ := by
  simp only [selectLibrary, readPqm, printf, emit, bind_apply, pure_apply, library,
    loadingBanner]
  by_cases hc : w.pqm.is_client_conn ≠ 0 <;> by_cases ht : w.pqm.trace_level ≠ 0 <;>
    simp [hc, ht, bind_apply, pure_apply, emit]

theorem MQ_LOAD_apply (P : Platform) (dl : DynamicLoader) (lib : String) (w : World) :
    MQ_LOAD P dl lib w =
      if dl.dlopen lib (P.RTLD_LAZY ||| P.RTLD_GLOBAL) = 0 then
        Result.raise ("WMQ::QueueManager#connect(). Failed to load MQ Library:" ++ lib
            ++ ", rc=" ++ dl.dlerror)
          ⟨w.pqm, w.trace ++ [Event.dlopen lib (P.RTLD_LAZY ||| P.RTLD_GLOBAL) 0,
            Event.dlerror dl.dlerror]⟩
      else
        Result.ok (dl.dlopen lib (P.RTLD_LAZY ||| P.RTLD_GLOBAL))
          ⟨w.pqm, w.trace ++ [Event.dlopen lib (P.RTLD_LAZY ||| P.RTLD_GLOBAL)
            (dl.dlopen lib (P.RTLD_LAZY ||| P.RTLD_GLOBAL))]⟩ := by
  simp only [MQ_LOAD, dlopen, dlerror, emit, rb_raise, bind_apply, pure_apply]
  split
  · rename_i h0; simp [h0, bind_apply, pure_apply, emit, rb_raise]
  · rfl

/-- The load when the library cannot be opened. -/
theorem load_open_failed (P : Platform) (dl : DynamicLoader) (w : World)
    (h0 : openedHandle P dl w.pqm = 0) :
    Queue_manager_mq_load P dl w =
      Result.raise ("WMQ::QueueManager#connect(). Failed to load MQ Library:"
          ++ library P w.pqm ++ ", rc=" ++ dl.dlerror)
        ⟨w.pqm, w.trace ++ loadingBanner P w.pqm ++
          [Event.dlopen (library P w.pqm) (P.RTLD_LAZY ||| P.RTLD_GLOBAL) 0,
            Event.dlerror dl.dlerror]⟩ := by
  unfold openedHandle at h0
  rw [load_eq]
  simp only [bind_apply, selectLibrary_apply, MQ_LOAD_apply, if_pos h0]

/-- The load up to the first `MQ_FUNCTION`, when the library opens. -/
theorem load_opened (P : Platform) (dl : DynamicLoader) (w : World)
    (h0 : openedHandle P dl w.pqm ≠ 0) :
    Queue_manager_mq_load P dl w =
      resolveThen dl (openedHandle P dl w.pqm) entryPoints
        (writePqm (fun pqm => { pqm with mq_lib_handle := openedHandle P dl w.pqm }) >>= fun _ =>
          readPqm >>= fun pqm => if pqm.trace_level > 1 then
            printf "WMQ::QueueManager#connect() MQ API's loaded successfully\n"
            else pure ())
        (afterOpen P dl w) := by
  unfold openedHandle at h0
  rw [load_eq]
  simp only [bind_apply, selectLibrary_apply, MQ_LOAD_apply, if_neg h0, readPqm]
  by_cases ht : w.pqm.trace_level > 1 <;>
    simp [ht, afterOpen, loadedBanner, openedHandle, printf, emit, pure_apply]

/-- The load when the library opens and every entry point resolves. -/
theorem load_all_resolved (P : Platform) (dl : DynamicLoader) (w : World)
    (h0 : openedHandle P dl w.pqm ≠ 0)
    (hall : ∀ m ∈ entryPoints, dl.dlsym (openedHandle P dl w.pqm) m.name ≠ 0) :
    Queue_manager_mq_load P dl w =
      Result.ok ()
        ⟨{ bound dl (openedHandle P dl w.pqm) entryPoints w.pqm with
            mq_lib_handle := openedHandle P dl w.pqm },
          (afterOpen P dl w).trace ++ lookups dl (openedHandle P dl w.pqm) entryPoints ++
            doneBanner (bound dl (openedHandle P dl w.pqm) entryPoints w.pqm)⟩ := by
  rw [load_opened P dl w h0, resolveThen_all dl _ _ entryPoints _ entryPoints_sound hall]
  simp only [bind_apply, writePqm, readPqm, doneBanner, afterOpen]
  split <;> simp [printf, emit, pure_apply]

/-- The load when the library opens and some entry point is the first not to resolve. -/
theorem load_first_unresolved (P : Platform) (dl : DynamicLoader) (w : World)
    (pre : List Member) (m : Member) (post : List Member)
    (h0 : openedHandle P dl w.pqm ≠ 0)
    (hsplit : entryPoints = pre ++ m :: post)
    (hpre : ∀ x ∈ pre, dl.dlsym (openedHandle P dl w.pqm) x.name ≠ 0)
    (hm : dl.dlsym (openedHandle P dl w.pqm) m.name = 0) :
    Queue_manager_mq_load P dl w =
      Result.raise ("Failed to find API " ++ m.name ++ " in MQ Library")
        ⟨bound dl (openedHandle P dl w.pqm) (pre ++ [m]) w.pqm,
          (afterOpen P dl w).trace ++ lookups dl (openedHandle P dl w.pqm) (pre ++ [m])⟩ := by
  have hs := entryPoints_sound
  rw [hsplit] at hs
  rw [load_opened P dl w h0, hsplit,
    resolveThen_first dl _ _ m post pre _ (fun x hx => hs x (by simp [hx])) (hs m (by simp))
      hpre hm]
  rfl


/-- The three ways a load can go. -/
theorem load_cases (P : Platform) (dl : DynamicLoader) (w : World) :
    (openedHandle P dl w.pqm = 0 ∧
      Queue_manager_mq_load P dl w =
        Result.raise ("WMQ::QueueManager#connect(). Failed to load MQ Library:"
            ++ library P w.pqm ++ ", rc=" ++ dl.dlerror)
          ⟨w.pqm, w.trace ++ loadingBanner P w.pqm ++
            [Event.dlopen (library P w.pqm) (P.RTLD_LAZY ||| P.RTLD_GLOBAL) 0,
              Event.dlerror dl.dlerror]⟩) ∨
    (openedHandle P dl w.pqm ≠ 0 ∧
      (∀ m ∈ entryPoints, dl.dlsym (openedHandle P dl w.pqm) m.name ≠ 0) ∧
      Queue_manager_mq_load P dl w =
        Result.ok ()
          ⟨{ bound dl (openedHandle P dl w.pqm) entryPoints w.pqm with
              mq_lib_handle := openedHandle P dl w.pqm },
            (afterOpen P dl w).trace ++ lookups dl (openedHandle P dl w.pqm) entryPoints ++
              doneBanner (bound dl (openedHandle P dl w.pqm) entryPoints w.pqm)⟩) ∨
    (openedHandle P dl w.pqm ≠ 0 ∧
      ∃ pre m post, entryPoints = pre ++ m :: post ∧
        (∀ x ∈ pre, dl.dlsym (openedHandle P dl w.pqm) x.name ≠ 0) ∧
        dl.dlsym (openedHandle P dl w.pqm) m.name = 0 ∧
        Queue_manager_mq_load P dl w =
          Result.raise ("Failed to find API " ++ m.name ++ " in MQ Library")
            ⟨bound dl (openedHandle P dl w.pqm) (pre ++ [m]) w.pqm,
              (afterOpen P dl w).trace ++
                lookups dl (openedHandle P dl w.pqm) (pre ++ [m])⟩) := by
  by_cases h0 : openedHandle P dl w.pqm = 0
  · exact Or.inl ⟨h0, load_open_failed P dl w h0⟩
  · rcases all_or_first (fun m => dl.dlsym (openedHandle P dl w.pqm) m.name ≠ 0) entryPoints
      with hall | ⟨pre, m, post, hsplit, hpre, hm⟩
    · exact Or.inr (Or.inl ⟨h0, hall, load_all_resolved P dl w h0 hall⟩)
    · have hm0 : dl.dlsym (openedHandle P dl w.pqm) m.name = 0 := by
        by_contra hne; exact hm hne
      exact Or.inr (Or.inr ⟨h0, pre, m, post, hsplit, hpre, hm0,
        load_first_unresolved P dl w pre m post h0 hsplit hpre hm0⟩)

theorem entryPoints_names :
    entryPoints.map Member.name =
      ["MQCONNX", "MQCONN", "MQDISC", "MQBEGIN", "MQBACK", "MQCMIT", "MQPUT1", "MQOPEN",
        "MQCLOSE", "MQGET", "MQPUT", "MQINQ", "MQSET", "mqCreateBag", "mqDeleteBag",
        "mqClearBag", "mqExecute", "mqCountItems", "mqInquireBag", "mqInquireItemInfo",
        "mqInquireInteger", "mqInquireString", "mqAddInquiry", "mqAddInteger",
        "mqAddString"] := rfl

theorem find_first {α β : Type} (f : α → β) (p : β → Bool) (m : α) (post : List α) :
    ∀ pre : List α, (∀ x ∈ pre, p (f x) = false) → p (f m) = true →
      ((pre ++ m :: post).map f).find? p = some (f m) := by
  intro pre
  induction pre with
  | nil => intro _ hm; simp [List.find?, hm]
  | cons a pre ih =>
    intro hp hm
    have ha : p (f a) = false := hp a (List.mem_cons_self _ _)
    simp only [List.cons_append, List.map_cons, List.find?, ha]
    exact ih (fun x hx => hp x (List.mem_cons_of_mem _ hx)) hm

/-- C1: `Queue_manager_mq_load` raises exactly when `dlopen` returns null or `dlsym`
returns null for at least one of the 25 entry points; no entry point may be absent. -/
theorem load_raises_iff (P : Platform) (dl : DynamicLoader) (w : World) :
    (Queue_manager_mq_load P dl w).raised ≠ none ↔
      (openedHandle P dl w.pqm = 0 ∨
        ∃ name ∈ ["MQCONNX", "MQCONN", "MQDISC", "MQBEGIN", "MQBACK", "MQCMIT", "MQPUT1",
            "MQOPEN", "MQCLOSE", "MQGET", "MQPUT", "MQINQ", "MQSET", "mqCreateBag",
            "mqDeleteBag", "mqClearBag", "mqExecute", "mqCountItems", "mqInquireBag",
            "mqInquireItemInfo", "mqInquireInteger", "mqInquireString", "mqAddInquiry",
            "mqAddInteger", "mqAddString"],
          dl.dlsym (openedHandle P dl w.pqm) name = 0) := by
  rw [← entryPoints_names]
  rcases load_cases P dl w with ⟨h0, hr⟩ | ⟨h0, hall, hr⟩ | ⟨h0, pre, m, post, hs, _, hm, hr⟩
  · rw [hr]; simp [Result.raised, h0]
  · rw [hr]
    simp only [Result.raised, ne_eq, not_true_eq_false, false_iff, not_or]
    refine ⟨h0, ?_⟩
    rintro ⟨name, hn, hz⟩
    rcases List.mem_map.mp hn with ⟨x, hx, rfl⟩
    exact hall x hx hz
  · rw [hr]
    simp only [Result.raised, ne_eq, reduceCtorEq, not_false_eq_true, true_iff]
    right
    exact ⟨m.name, List.mem_map.mpr ⟨m, by rw [hs]; simp, rfl⟩, hm⟩

/-- C2: when the library opens and some entry point does not resolve, the exception
message is "Failed to find API NAME in MQ Library" where NAME is the first name, in
the order in which the code resolves them, for which `dlsym` returns null. -/
theorem load_error_names_first_unresolved (P : Platform) (dl : DynamicLoader) (w : World)
    (hopen : openedHandle P dl w.pqm ≠ 0)
    (hmiss : ∃ name ∈ ["MQCONNX", "MQCONN", "MQDISC", "MQBEGIN", "MQBACK", "MQCMIT", "MQPUT1",
            "MQOPEN", "MQCLOSE", "MQGET", "MQPUT", "MQINQ", "MQSET", "mqCreateBag",
            "mqDeleteBag", "mqClearBag", "mqExecute", "mqCountItems", "mqInquireBag",
            "mqInquireItemInfo", "mqInquireInteger", "mqInquireString", "mqAddInquiry",
            "mqAddInteger", "mqAddString"],
          dl.dlsym (openedHandle P dl w.pqm) name = 0) :
    ∃ NAME,
      List.find? (fun name => decide (dl.dlsym (openedHandle P dl w.pqm) name = 0))
          ["MQCONNX", "MQCONN", "MQDISC", "MQBEGIN", "MQBACK", "MQCMIT", "MQPUT1",
            "MQOPEN", "MQCLOSE", "MQGET", "MQPUT", "MQINQ", "MQSET", "mqCreateBag",
            "mqDeleteBag", "mqClearBag", "mqExecute", "mqCountItems", "mqInquireBag",
            "mqInquireItemInfo", "mqInquireInteger", "mqInquireString", "mqAddInquiry",
            "mqAddInteger", "mqAddString"] = some NAME ∧
        dl.dlsym (openedHandle P dl w.pqm) NAME = 0 ∧
        (Queue_manager_mq_load P dl w).raised =
          some ("Failed to find API " ++ NAME ++ " in MQ Library") := by
  rw [← entryPoints_names] at hmiss ⊢
  rcases load_cases P dl w with ⟨h0, _⟩ | ⟨_, hall, _⟩ | ⟨_, pre, m, post, hs, hpre, hm, hr⟩
  · exact absurd h0 hopen
  · rcases hmiss with ⟨name, hn, hz⟩
    rcases List.mem_map.mp hn with ⟨x, hx, rfl⟩
    exact absurd hz (hall x hx)
  · refine ⟨m.name, ?_, hm, by rw [hr]; rfl⟩
    rw [hs]
    exact find_first Member.name _ m post pre (fun x hx => by simpa using hpre x hx)
      (by simpa using hm)


/-! ### Members and traces -/

theorem bound_keeps (dl : DynamicLoader) (h : Nat) :
    ∀ (ms : List Member) (s : QUEUE_MANAGER), (∀ m ∈ ms, m.Sound) →
      (bound dl h ms s).mq_lib_handle = s.mq_lib_handle ∧
      (bound dl h ms s).trace_level = s.trace_level ∧
      (bound dl h ms s).is_client_conn = s.is_client_conn := by
  intro ms
  induction ms with
  | nil => intro s _; exact ⟨rfl, rfl, rfl⟩
  | cons m ms ih =>
    intro s hs
    have hm := hs m (List.mem_cons_self _ _)
    have := ih (m.set s (dl.dlsym h m.name)) (fun x hx => hs x (List.mem_cons_of_mem _ hx))
    rw [bound_cons]
    exact ⟨this.1.trans (hm.keeps_handle _ _), this.2.1.trans (hm.keeps_trace_level _ _),
      this.2.2.trans (hm.keeps_client_conn _ _)⟩

/-- A member apart from all members of a list keeps its value. -/
theorem get_bound_apart (dl : DynamicLoader) (h : Nat) (x : Member) :
    ∀ (ms : List Member) (s : QUEUE_MANAGER), (∀ y ∈ ms, ∀ s v, x.get (y.set s v) = x.get s) →
      x.get (bound dl h ms s) = x.get s := by
  intro ms
  induction ms with
  | nil => intro s _; rfl
  | cons m ms ih =>
    intro s hy
    rw [bound_cons, ih _ (fun y hy2 => hy y (List.mem_cons_of_mem _ hy2))]
    exact hy m (List.mem_cons_self _ _) _ _

/-- A member of the list holds what `dlsym` returned for its name. -/
theorem get_bound_mem (dl : DynamicLoader) (h : Nat) (x : Member) :
    ∀ (ms : List Member) (s : QUEUE_MANAGER), (∀ m ∈ ms, m.Sound) →
      ms.Pairwise Member.Apart → x ∈ ms →
      x.get (bound dl h ms s) = dl.dlsym h x.name := by
  intro ms
  induction ms with
  | nil => intro s _ _ hx; simp at hx
  | cons m ms ih =>
    intro s hs hp hx
    rw [bound_cons]
    rcases List.mem_cons.mp hx with rfl | hx
    · rw [get_bound_apart dl h x ms _ (fun y hy => ((List.pairwise_cons.mp hp).1 y hy).1)]
      exact (hs x (List.mem_cons_self _ _)).get_set _ _
    · exact ih _ (fun y hy => hs y (List.mem_cons_of_mem _ hy)) (List.pairwise_cons.mp hp).2 hx

theorem closes_append (a b : List Event) : closes (a ++ b) = closes a ++ closes b := by
  simp [closes, List.filterMap_append]

theorem opens_append (a b : List Event) : opens (a ++ b) = opens a ++ opens b := by
  simp [opens, List.filterMap_append]

theorem openArgs_append (a b : List Event) : openArgs (a ++ b) = openArgs a ++ openArgs b := by
  simp [openArgs, List.filterMap_append]

theorem loadingBanner_quiet (P : Platform) (pqm : QUEUE_MANAGER) :
    closes (loadingBanner P pqm) = [] ∧ opens (loadingBanner P pqm) = [] ∧
      openArgs (loadingBanner P pqm) = [] := by
  unfold loadingBanner; split <;> simp [closes, opens, openArgs]

theorem loadedBanner_quiet (P : Platform) (pqm : QUEUE_MANAGER) :
    closes (loadedBanner P pqm) = [] ∧ opens (loadedBanner P pqm) = [] ∧
      openArgs (loadedBanner P pqm) = [] := by
  unfold loadedBanner; split <;> simp [closes, opens, openArgs]

theorem doneBanner_quiet (pqm : QUEUE_MANAGER) :
    closes (doneBanner pqm) = [] ∧ opens (doneBanner pqm) = [] ∧
      openArgs (doneBanner pqm) = [] := by
  unfold doneBanner; split <;> simp [closes, opens, openArgs]

theorem lookups_quiet (dl : DynamicLoader) (h : Nat) (ms : List Member) :
    closes (lookups dl h ms) = [] ∧ opens (lookups dl h ms) = [] ∧
      openArgs (lookups dl h ms) = [] := by
  induction ms with
  | nil => simp [lookups, closes, opens, openArgs]
  | cons m ms ih =>
    simp only [lookups, closes, opens, openArgs, List.map_cons, List.filterMap_cons] at ih ⊢
    exact ih

theorem afterOpen_trace (P : Platform) (dl : DynamicLoader) (w : World) :
    closes (afterOpen P dl w).trace = closes w.trace ∧
      opens (afterOpen P dl w).trace = opens w.trace ++ [openedHandle P dl w.pqm] ∧
      openArgs (afterOpen P dl w).trace =
        openArgs w.trace ++ [(library P w.pqm, P.RTLD_LAZY ||| P.RTLD_GLOBAL)] := by
  simp only [afterOpen, closes_append, opens_append, openArgs_append,
    (loadingBanner_quiet P w.pqm).1, (loadingBanner_quiet P w.pqm).2.1,
    (loadingBanner_quiet P w.pqm).2.2, (loadedBanner_quiet P w.pqm).1,
    (loadedBanner_quiet P w.pqm).2.1, (loadedBanner_quiet P w.pqm).2.2, List.append_nil]
  simp [closes, opens, openArgs]

/-- What a load adds to the trace, whichever way it ends: one `dlopen`, no `dlclose`. -/
theorem load_trace (P : Platform) (dl : DynamicLoader) (w : World) :
    closes (Queue_manager_mq_load P dl w).world.trace = closes w.trace ∧
      opens (Queue_manager_mq_load P dl w).world.trace =
        opens w.trace ++ [openedHandle P dl w.pqm] ∧
      openArgs (Queue_manager_mq_load P dl w).world.trace =
        openArgs w.trace ++ [(library P w.pqm, P.RTLD_LAZY ||| P.RTLD_GLOBAL)] := by
  rcases load_cases P dl w with ⟨h0, hr⟩ | ⟨_, _, hr⟩ | ⟨_, pre, m, post, _, _, _, hr⟩
  · rw [hr]
    simp only [Result.world, closes_append, opens_append, openArgs_append,
      (loadingBanner_quiet P w.pqm).1, (loadingBanner_quiet P w.pqm).2.1,
      (loadingBanner_quiet P w.pqm).2.2, List.append_nil, h0]
    simp [closes, opens, openArgs]
  · rw [hr]
    simp only [Result.world, closes_append, opens_append, openArgs_append,
      (lookups_quiet dl _ _).1, (lookups_quiet dl _ _).2.1, (lookups_quiet dl _ _).2.2,
      (doneBanner_quiet _).1, (doneBanner_quiet _).2.1, (doneBanner_quiet _).2.2,
      List.append_nil]
    exact afterOpen_trace P dl w
  · rw [hr]
    simp only [Result.world, closes_append, opens_append, openArgs_append,
      (lookups_quiet dl _ _).1, (lookups_quiet dl _ _).2.1, (lookups_quiet dl _ _).2.2,
      List.append_nil]
    exact afterOpen_trace P dl w

/-- The library handle after a load: the new handle on success, the old one otherwise. -/
theorem load_handle (P : Platform) (dl : DynamicLoader) (w : World) :
    ((Queue_manager_mq_load P dl w).raised = none ∧ openedHandle P dl w.pqm ≠ 0 ∧
        (Queue_manager_mq_load P dl w).world.pqm.mq_lib_handle = openedHandle P dl w.pqm) ∨
      ((Queue_manager_mq_load P dl w).raised ≠ none ∧
        (Queue_manager_mq_load P dl w).world.pqm.mq_lib_handle = w.pqm.mq_lib_handle) := by
  rcases load_cases P dl w with ⟨_, hr⟩ | ⟨h0, _, hr⟩ | ⟨_, pre, m, post, hs, _, _, hr⟩
  · right; rw [hr]; simp [Result.raised, Result.world]
  · left; rw [hr]; exact ⟨rfl, h0, rfl⟩
  · right; rw [hr]
    have hsound := entryPoints_sound
    rw [hs] at hsound
    refine ⟨by simp [Result.raised], ?_⟩
    exact (bound_keeps dl _ (pre ++ [m]) w.pqm (fun x hx => hsound x (by
      rcases List.mem_append.mp hx with h | h
      · simp [h]
      · simp [List.mem_singleton.mp h]))).1

/-- What `Queue_manager_mq_free` does. -/
theorem free_apply (w : World) :
    Queue_manager_mq_free w =
      if w.pqm.mq_lib_handle ≠ 0 then
        Result.ok ()
          ⟨{ w.pqm with mq_lib_handle := 0 },
            w.trace ++ releaseBanner w.pqm ++ [Event.dlclose w.pqm.mq_lib_handle]⟩
      else Result.ok () w := by
  simp only [Queue_manager_mq_free, MQ_RELEASE, dlclose, readPqm, writePqm, printf, emit,
    bind_apply, pure_apply, releaseBanner]
  by_cases h : w.pqm.mq_lib_handle ≠ 0 <;> by_cases ht : w.pqm.trace_level > 1 <;>
    simp [h, ht, pure_apply, bind_apply, emit, readPqm, writePqm]

theorem releaseBanner_quiet (pqm : QUEUE_MANAGER) :
    closes (releaseBanner pqm) = [] ∧ opens (releaseBanner pqm) = [] := by
  unfold releaseBanner; split <;> simp [closes, opens]

theorem free_of_null (w : World) (h : w.pqm.mq_lib_handle = 0) :
    Queue_manager_mq_free w = Result.ok () w := by
  rw [free_apply]; simp [h]

theorem free_handle (w : World) : (Queue_manager_mq_free w).world.pqm.mq_lib_handle = 0 := by
  rw [free_apply]
  by_cases h : w.pqm.mq_lib_handle ≠ 0
  · simp [h, Result.world]
  · rw [if_neg h]; simpa using h

theorem runCalls_free_of_null (n : Nat) (w : World) (h : w.pqm.mq_lib_handle = 0) :
    runCalls (List.replicate n Call.free) w = w := by
  induction n with
  | zero => rfl
  | succ n ih =>
    simp only [List.replicate_succ, runCalls, List.foldl_cons, Call.run, free_of_null w h,
      Result.world]
    exact ih


/-! ## The properties -/

/-- C2, at concrete inputs: a fresh manager and a library without `MQCONN`. -/
theorem load_error_names_first_unresolved_witness :
    openedHandle linux loaderWithoutMQCONN freshManager ≠ 0 ∧
      loaderWithoutMQCONN.dlsym (openedHandle linux loaderWithoutMQCONN freshManager) "MQCONN"
        = 0 ∧
      (Queue_manager_mq_load linux loaderWithoutMQCONN ⟨freshManager, []⟩).raised =
        some "Failed to find API MQCONN in MQ Library" := by
  refine ⟨by decide, by decide, ?_⟩
  obtain ⟨NAME, hfind, _, hr⟩ :=
    load_error_names_first_unresolved linux loaderWithoutMQCONN ⟨freshManager, []⟩ (by decide)
      ⟨"MQCONN", by decide, by decide⟩
  have hname : some NAME = some "MQCONN" := by
    rw [← hfind]; decide
  rw [hr, Option.some.inj hname]
  decide

/-- C3 (as stated, refuted): on a fresh manager, with a library that opens and lacks
only `MQCONN`, the load raises and yet the member `MQCONNX` has been overwritten. -/
theorem load_failure_changes_binding_table :
    (Queue_manager_mq_load linux loaderWithoutMQCONN ⟨freshManager, []⟩).raised =
        some "Failed to find API MQCONN in MQ Library" ∧
      freshManager.MQCONNX = 0 ∧
      (Queue_manager_mq_load linux loaderWithoutMQCONN ⟨freshManager, []⟩).world.pqm.MQCONNX
        = 7 := by
  decide

/-- C3 (amended): a failed load leaves `is_client_conn`, `trace_level` and
`mq_lib_handle` as they were.  When the library cannot be opened the whole structure
is as before.  When the library opens and an entry point is the first not to resolve,
the members resolved before it hold their new addresses, its own member is null, and
the members that come after it in the resolution order are as before. -/
theorem load_failure_frame (P : Platform) (dl : DynamicLoader) (w : World)
    (hfail : (Queue_manager_mq_load P dl w).raised ≠ none) :
    (Queue_manager_mq_load P dl w).world.pqm.is_client_conn = w.pqm.is_client_conn ∧
    (Queue_manager_mq_load P dl w).world.pqm.trace_level = w.pqm.trace_level ∧
    (Queue_manager_mq_load P dl w).world.pqm.mq_lib_handle = w.pqm.mq_lib_handle ∧
    ((openedHandle P dl w.pqm = 0 ∧ (Queue_manager_mq_load P dl w).world.pqm = w.pqm) ∨
      (openedHandle P dl w.pqm ≠ 0 ∧
        ∃ pre m post, entryPoints = pre ++ m :: post ∧
          (∀ x ∈ pre, dl.dlsym (openedHandle P dl w.pqm) x.name ≠ 0 ∧
            x.get (Queue_manager_mq_load P dl w).world.pqm =
              dl.dlsym (openedHandle P dl w.pqm) x.name) ∧
          dl.dlsym (openedHandle P dl w.pqm) m.name = 0 ∧
          m.get (Queue_manager_mq_load P dl w).world.pqm = 0 ∧
          (∀ x ∈ post, x.get (Queue_manager_mq_load P dl w).world.pqm = x.get w.pqm))) := by
  rcases load_cases P dl w with ⟨h0, hr⟩ | ⟨_, _, hr⟩ | ⟨h0, pre, m, post, hs, hpre, hm, hr⟩
  · rw [hr]; exact ⟨rfl, rfl, rfl, Or.inl ⟨h0, rfl⟩⟩
  · rw [hr] at hfail; simp [Result.raised] at hfail
  · rw [hr]
    have hsound := entryPoints_sound
    have hapart := entryPoints_apart
    rw [hs] at hsound hapart
    have hsound1 : ∀ x ∈ pre ++ [m], x.Sound := by
      intro x hx
      rcases List.mem_append.mp hx with h | h
      · exact hsound x (by simp [h])
      · exact hsound x (by simp [List.mem_singleton.mp h])
    have hapart1 : (pre ++ [m]).Pairwise Member.Apart := by
      have : (pre ++ [m] ++ post).Pairwise Member.Apart := by simpa using hapart
      exact (List.pairwise_append.mp this).1
    have hk := bound_keeps dl (openedHandle P dl w.pqm) (pre ++ [m]) w.pqm hsound1
    refine ⟨hk.2.2, hk.2.1, hk.1, Or.inr ⟨h0, pre, m, post, hs, ?_, hm, ?_, ?_⟩⟩
    · intro x hx
      exact ⟨hpre x hx, get_bound_mem dl _ x (pre ++ [m]) w.pqm hsound1 hapart1 (by simp [hx])⟩
    · have := get_bound_mem dl (openedHandle P dl w.pqm) m (pre ++ [m]) w.pqm hsound1 hapart1
        (by simp)
      simpa [Result.world, hm] using this
    · intro x hx
      have hx2 : ∀ y ∈ pre ++ [m], ∀ s v, x.get (y.set s v) = x.get s := by
        have : (pre ++ [m] ++ post).Pairwise Member.Apart := by simpa using hapart
        intro y hy
        exact ((List.pairwise_append.mp this).2.2 y hy x hx).2
      exact get_bound_apart dl _ x (pre ++ [m]) w.pqm hx2

/-- C3 (amended), at a concrete input: a fresh manager and a library without `MQCONN`. -/
theorem load_failure_frame_witness :
    (Queue_manager_mq_load linux loaderWithoutMQCONN ⟨freshManager, []⟩).raised ≠ none ∧
    (Queue_manager_mq_load linux loaderWithoutMQCONN ⟨freshManager, []⟩).world.pqm.mq_lib_handle
      = 0 :=
  ⟨by decide,
    (load_failure_frame linux loaderWithoutMQCONN ⟨freshManager, []⟩ (by decide)).2.2.1⟩

/-- C4: a load that fails on a manager whose `mq_lib_handle` is null leaves
`mq_lib_handle` null. -/
theorem load_failure_keeps_handle_null (P : Platform) (dl : DynamicLoader) (w : World)
    (hnull : w.pqm.mq_lib_handle = 0)
    (hfail : (Queue_manager_mq_load P dl w).raised ≠ none) :
    (Queue_manager_mq_load P dl w).world.pqm.mq_lib_handle = 0 := by
  rcases load_handle P dl w with ⟨hok, _, _⟩ | ⟨_, hkeep⟩
  · exact absurd hok hfail
  · rw [hkeep, hnull]

/-- C4, at concrete inputs: the library cannot be opened. -/
theorem load_failure_keeps_handle_null_witness :
    freshManager.mq_lib_handle = 0 ∧
    (Queue_manager_mq_load linux loaderWithoutLibrary ⟨freshManager, []⟩).raised ≠ none ∧
    (Queue_manager_mq_load linux loaderWithoutLibrary ⟨freshManager, []⟩).world.pqm.mq_lib_handle
      = 0 :=
  ⟨rfl, by decide,
    load_failure_keeps_handle_null linux loaderWithoutLibrary ⟨freshManager, []⟩ rfl (by decide)⟩

/-- C5: the load calls `dlopen` once, and the library name it passes is "libmqic_r"
followed by `SOEXT` when `is_client_conn` is non-zero and "libmqm_r" followed by
`SOEXT` when it is zero; every other member of the manager, the trace level
included, can be replaced without changing the name. -/
theorem load_library_name (P : Platform) (dl : DynamicLoader) (w : World) :
    openArgs (Queue_manager_mq_load P dl w).world.trace =
        openArgs w.trace ++
          [(if w.pqm.is_client_conn ≠ 0 then "libmqic_r" ++ P.SOEXT else "libmqm_r" ++ P.SOEXT,
            P.RTLD_LAZY ||| P.RTLD_GLOBAL)] ∧
      ∀ other : QUEUE_MANAGER,
        openArgs (Queue_manager_mq_load P dl
            ⟨{ other with is_client_conn := w.pqm.is_client_conn }, w.trace⟩).world.trace =
          openArgs (Queue_manager_mq_load P dl w).world.trace := by
  refine ⟨(load_trace P dl w).2.2, fun other => ?_⟩
  rw [(load_trace P dl w).2.2, (load_trace P dl _).2.2]
  rfl

/-- C9: when the load returns normally, `dlopen` returned a non-null handle, that
handle is stored in `mq_lib_handle`, and each of the 25 entry-point members is
non-null and holds what `dlsym` returned on that handle for the symbol of the same
name.  The names are the connection, transaction, messaging, object and
administrative entry points that the design lists. -/
theorem load_success_postcondition (P : Platform) (dl : DynamicLoader) (w : World)
    (hok : (Queue_manager_mq_load P dl w).raised = none) :
    opens (Queue_manager_mq_load P dl w).world.trace =
        opens w.trace ++ [openedHandle P dl w.pqm] ∧
      openedHandle P dl w.pqm ≠ 0 ∧
      (Queue_manager_mq_load P dl w).world.pqm.mq_lib_handle = openedHandle P dl w.pqm ∧
      ((Queue_manager_mq_load P dl w).world.pqm.MQCONNX =
          dl.dlsym (openedHandle P dl w.pqm) "MQCONNX" ∧
        (Queue_manager_mq_load P dl w).world.pqm.MQCONNX ≠ 0) ∧
      ((Queue_manager_mq_load P dl w).world.pqm.MQCONN =
          dl.dlsym (openedHandle P dl w.pqm) "MQCONN" ∧
        (Queue_manager_mq_load P dl w).world.pqm.MQCONN ≠ 0) ∧
      ((Queue_manager_mq_load P dl w).world.pqm.MQDISC =
          dl.dlsym (openedHandle P dl w.pqm) "MQDISC" ∧
        (Queue_manager_mq_load P dl w).world.pqm.MQDISC ≠ 0) ∧
      ((Queue_manager_mq_load P dl w).world.pqm.MQBEGIN =
          dl.dlsym (openedHandle P dl w.pqm) "MQBEGIN" ∧
        (Queue_manager_mq_load P dl w).world.pqm.MQBEGIN ≠ 0) ∧
      ((Queue_manager_mq_load P dl w).world.pqm.MQBACK =
          dl.dlsym (openedHandle P dl w.pqm) "MQBACK" ∧
        (Queue_manager_mq_load P dl w).world.pqm.MQBACK ≠ 0) ∧
      ((Queue_manager_mq_load P dl w).world.pqm.MQCMIT =
          dl.dlsym (openedHandle P dl w.pqm) "MQCMIT" ∧
        (Queue_manager_mq_load P dl w).world.pqm.MQCMIT ≠ 0) ∧
      ((Queue_manager_mq_load P dl w).world.pqm.MQPUT1 =
          dl.dlsym (openedHandle P dl w.pqm) "MQPUT1" ∧
        (Queue_manager_mq_load P dl w).world.pqm.MQPUT1 ≠ 0) ∧
      ((Queue_manager_mq_load P dl w).world.pqm.MQOPEN =
          dl.dlsym (openedHandle P dl w.pqm) "MQOPEN" ∧
        (Queue_manager_mq_load P dl w).world.pqm.MQOPEN ≠ 0) ∧
      ((Queue_manager_mq_load P dl w).world.pqm.MQCLOSE =
          dl.dlsym (openedHandle P dl w.pqm) "MQCLOSE" ∧
        (Queue_manager_mq_load P dl w).world.pqm.MQCLOSE ≠ 0) ∧
      ((Queue_manager_mq_load P dl w).world.pqm.MQGET =
          dl.dlsym (openedHandle P dl w.pqm) "MQGET" ∧
        (Queue_manager_mq_load P dl w).world.pqm.MQGET ≠ 0) ∧
      ((Queue_manager_mq_load P dl w).world.pqm.MQPUT =
          dl.dlsym (openedHandle P dl w.pqm) "MQPUT" ∧
        (Queue_manager_mq_load P dl w).world.pqm.MQPUT ≠ 0) ∧
      ((Queue_manager_mq_load P dl w).world.pqm.MQINQ =
          dl.dlsym (openedHandle P dl w.pqm) "MQINQ" ∧
        (Queue_manager_mq_load P dl w).world.pqm.MQINQ ≠ 0) ∧
      ((Queue_manager_mq_load P dl w).world.pqm.MQSET =
          dl.dlsym (openedHandle P dl w.pqm) "MQSET" ∧
        (Queue_manager_mq_load P dl w).world.pqm.MQSET ≠ 0) ∧
      ((Queue_manager_mq_load P dl w).world.pqm.mqCreateBag =
          dl.dlsym (openedHandle P dl w.pqm) "mqCreateBag" ∧
        (Queue_manager_mq_load P dl w).world.pqm.mqCreateBag ≠ 0) ∧
      ((Queue_manager_mq_load P dl w).world.pqm.mqDeleteBag =
          dl.dlsym (openedHandle P dl w.pqm) "mqDeleteBag" ∧
        (Queue_manager_mq_load P dl w).world.pqm.mqDeleteBag ≠ 0) ∧
      ((Queue_manager_mq_load P dl w).world.pqm.mqClearBag =
          dl.dlsym (openedHandle P dl w.pqm) "mqClearBag" ∧
        (Queue_manager_mq_load P dl w).world.pqm.mqClearBag ≠ 0) ∧
      ((Queue_manager_mq_load P dl w).world.pqm.mqExecute =
          dl.dlsym (openedHandle P dl w.pqm) "mqExecute" ∧
        (Queue_manager_mq_load P dl w).world.pqm.mqExecute ≠ 0) ∧
      ((Queue_manager_mq_load P dl w).world.pqm.mqCountItems =
          dl.dlsym (openedHandle P dl w.pqm) "mqCountItems" ∧
        (Queue_manager_mq_load P dl w).world.pqm.mqCountItems ≠ 0) ∧
      ((Queue_manager_mq_load P dl w).world.pqm.mqInquireBag =
          dl.dlsym (openedHandle P dl w.pqm) "mqInquireBag" ∧
        (Queue_manager_mq_load P dl w).world.pqm.mqInquireBag ≠ 0) ∧
      ((Queue_manager_mq_load P dl w).world.pqm.mqInquireItemInfo =
          dl.dlsym (openedHandle P dl w.pqm) "mqInquireItemInfo" ∧
        (Queue_manager_mq_load P dl w).world.pqm.mqInquireItemInfo ≠ 0) ∧
      ((Queue_manager_mq_load P dl w).world.pqm.mqInquireInteger =
          dl.dlsym (openedHandle P dl w.pqm) "mqInquireInteger" ∧
        (Queue_manager_mq_load P dl w).world.pqm.mqInquireInteger ≠ 0) ∧
      ((Queue_manager_mq_load P dl w).world.pqm.mqInquireString =
          dl.dlsym (openedHandle P dl w.pqm) "mqInquireString" ∧
        (Queue_manager_mq_load P dl w).world.pqm.mqInquireString ≠ 0) ∧
      ((Queue_manager_mq_load P dl w).world.pqm.mqAddInquiry =
          dl.dlsym (openedHandle P dl w.pqm) "mqAddInquiry" ∧
        (Queue_manager_mq_load P dl w).world.pqm.mqAddInquiry ≠ 0) ∧
      ((Queue_manager_mq_load P dl w).world.pqm.mqAddInteger =
          dl.dlsym (openedHandle P dl w.pqm) "mqAddInteger" ∧
        (Queue_manager_mq_load P dl w).world.pqm.mqAddInteger ≠ 0) ∧
      ((Queue_manager_mq_load P dl w).world.pqm.mqAddString =
          dl.dlsym (openedHandle P dl w.pqm) "mqAddString" ∧
        (Queue_manager_mq_load P dl w).world.pqm.mqAddString ≠ 0) ∧
      (entryPoints.map Member.name).Perm
        (["MQCONNX", "MQCONN", "MQDISC"] ++ ["MQBEGIN", "MQCMIT", "MQBACK"] ++
          ["MQPUT", "MQPUT1", "MQGET"] ++ ["MQOPEN", "MQCLOSE", "MQINQ", "MQSET"] ++
          ["mqCreateBag", "mqDeleteBag", "mqClearBag", "mqExecute", "mqCountItems",
            "mqInquireBag", "mqInquireItemInfo", "mqInquireInteger", "mqInquireString",
            "mqAddInquiry", "mqAddInteger", "mqAddString"]) := by
  refine ⟨(load_trace P dl w).2.1, ?_⟩
  rcases load_cases P dl w with ⟨_, hr⟩ | ⟨h0, hall, hr⟩ | ⟨_, pre, m, post, _, _, _, hr⟩
  · rw [hr] at hok; simp [Result.raised] at hok
  · rw [hr]
    have hf0 := hall FUNC.MQCONNX (by simp [entryPoints])
    have hf1 := hall FUNC.MQCONN (by simp [entryPoints])
    have hf2 := hall FUNC.MQDISC (by simp [entryPoints])
    have hf3 := hall FUNC.MQBEGIN (by simp [entryPoints])
    have hf4 := hall FUNC.MQBACK (by simp [entryPoints])
    have hf5 := hall FUNC.MQCMIT (by simp [entryPoints])
    have hf6 := hall FUNC.MQPUT1 (by simp [entryPoints])
    have hf7 := hall FUNC.MQOPEN (by simp [entryPoints])
    have hf8 := hall FUNC.MQCLOSE (by simp [entryPoints])
    have hf9 := hall FUNC.MQGET (by simp [entryPoints])
    have hf10 := hall FUNC.MQPUT (by simp [entryPoints])
    have hf11 := hall FUNC.MQINQ (by simp [entryPoints])
    have hf12 := hall FUNC.MQSET (by simp [entryPoints])
    have hf13 := hall FUNC.mqCreateBag (by simp [entryPoints])
    have hf14 := hall FUNC.mqDeleteBag (by simp [entryPoints])
    have hf15 := hall FUNC.mqClearBag (by simp [entryPoints])
    have hf16 := hall FUNC.mqExecute (by simp [entryPoints])
    have hf17 := hall FUNC.mqCountItems (by simp [entryPoints])
    have hf18 := hall FUNC.mqInquireBag (by simp [entryPoints])
    have hf19 := hall FUNC.mqInquireItemInfo (by simp [entryPoints])
    have hf20 := hall FUNC.mqInquireInteger (by simp [entryPoints])
    have hf21 := hall FUNC.mqInquireString (by simp [entryPoints])
    have hf22 := hall FUNC.mqAddInquiry (by simp [entryPoints])
    have hf23 := hall FUNC.mqAddInteger (by simp [entryPoints])
    have hf24 := hall FUNC.mqAddString (by simp [entryPoints])
    exact ⟨h0, rfl,
      ⟨rfl, hf0⟩,
      ⟨rfl, hf1⟩,
      ⟨rfl, hf2⟩,
      ⟨rfl, hf3⟩,
      ⟨rfl, hf4⟩,
      ⟨rfl, hf5⟩,
      ⟨rfl, hf6⟩,
      ⟨rfl, hf7⟩,
      ⟨rfl, hf8⟩,
      ⟨rfl, hf9⟩,
      ⟨rfl, hf10⟩,
      ⟨rfl, hf11⟩,
      ⟨rfl, hf12⟩,
      ⟨rfl, hf13⟩,
      ⟨rfl, hf14⟩,
      ⟨rfl, hf15⟩,
      ⟨rfl, hf16⟩,
      ⟨rfl, hf17⟩,
      ⟨rfl, hf18⟩,
      ⟨rfl, hf19⟩,
      ⟨rfl, hf20⟩,
      ⟨rfl, hf21⟩,
      ⟨rfl, hf22⟩,
      ⟨rfl, hf23⟩,
      ⟨rfl, hf24⟩,
      by decide⟩
  · rw [hr] at hok; simp [Result.raised] at hok

/-- C9, at concrete inputs: a library that has every entry point. -/
theorem load_success_postcondition_witness :
    (Queue_manager_mq_load linux completeLoader ⟨freshManager, []⟩).raised = none ∧
    (Queue_manager_mq_load linux completeLoader ⟨freshManager, []⟩).world.pqm.mq_lib_handle
      = 4096 ∧
    (Queue_manager_mq_load linux completeLoader ⟨freshManager, []⟩).world.pqm.mqAddString
      = 12 :=
  ⟨by decide,
    (load_success_postcondition linux completeLoader ⟨freshManager, []⟩ (by decide)).2.2.1,
    (load_success_postcondition linux completeLoader ⟨freshManager, []⟩
      (by decide)).2.2.2.2.2.2.2.2.2.2.2.2.2.2.2.2.2.2.2.2.2.2.2.2.2.2.2.1.1⟩


/-- One call keeps the balance: for every handle, the `dlclose` calls on it plus the
one the manager still holds do not exceed the `dlopen` calls that returned it plus the
credit `c`. -/
theorem run_balance (c : Nat → Nat) (call : Call) (w : World)
    (hinv : ∀ h, List.count h (closes w.trace) +
        (if w.pqm.mq_lib_handle = h ∧ h ≠ 0 then 1 else 0) ≤ List.count h (opens w.trace) + c h) :
    ∀ h, List.count h (closes (call.run w).trace) +
        (if (call.run w).pqm.mq_lib_handle = h ∧ h ≠ 0 then 1 else 0) ≤
      List.count h (opens (call.run w).trace) + c h := by
  intro h
  have hi := hinv h
  cases call with
  | load P dl =>
    simp only [Call.run]
    rw [(load_trace P dl w).1, (load_trace P dl w).2.1, List.count_append]
    rcases load_handle P dl w with ⟨_, hne, hh⟩ | ⟨_, hh⟩
    · simp only [hh]
      by_cases hg : openedHandle P dl w.pqm = h
      · subst hg
        simp only [List.count_singleton_self]
        split_ifs at hi ⊢ <;> omega
      · have : List.count h [openedHandle P dl w.pqm] = 0 := by
          simp [List.count_singleton, hg]
        rw [if_neg (fun hc => hg hc.1)]
        omega
    · simp only [hh]; omega
  | free =>
    simp only [Call.run]
    have hf := free_apply w
    by_cases hz : w.pqm.mq_lib_handle ≠ 0
    · rw [if_pos hz] at hf
      simp only [hf, Result.world, closes_append, opens_append, (releaseBanner_quiet w.pqm).1,
        (releaseBanner_quiet w.pqm).2, List.append_nil, List.count_append]
      have hc : closes [Event.dlclose w.pqm.mq_lib_handle] = [w.pqm.mq_lib_handle] := rfl
      have ho : opens [Event.dlclose w.pqm.mq_lib_handle] = [] := rfl
      simp only [hc, ho, List.count_nil, Nat.add_zero]
      by_cases hg : w.pqm.mq_lib_handle = h
      · subst hg
        rw [if_pos ⟨rfl, hz⟩] at hi
        simp only [List.count_singleton_self]
        split_ifs <;> omega
      · have : List.count h [w.pqm.mq_lib_handle] = 0 := by simp [List.count_singleton, hg]
        split_ifs at hi ⊢ <;> omega
    · rw [if_neg hz] at hf
      simp only [hf, Result.world]; exact hi

theorem runCalls_balance (c : Nat → Nat) :
    ∀ (cs : List Call) (w : World),
      (∀ h, List.count h (closes w.trace) +
        (if w.pqm.mq_lib_handle = h ∧ h ≠ 0 then 1 else 0) ≤ List.count h (opens w.trace) + c h) →
      ∀ h, List.count h (closes (runCalls cs w).trace) +
          (if (runCalls cs w).pqm.mq_lib_handle = h ∧ h ≠ 0 then 1 else 0) ≤
        List.count h (opens (runCalls cs w).trace) + c h := by
  intro cs
  induction cs with
  | nil => intro w hinv; exact hinv
  | cons call cs ih =>
    intro w hinv
    exact ih (call.run w) (run_balance c call w hinv)

theorem runCalls_free_succ (n : Nat) (w : World) (hz : w.pqm.mq_lib_handle ≠ 0) :
    runCalls (List.replicate (n + 1) Call.free) w =
      ⟨{ w.pqm with mq_lib_handle := 0 },
        w.trace ++ releaseBanner w.pqm ++ [Event.dlclose w.pqm.mq_lib_handle]⟩ := by
  simp only [List.replicate_succ, runCalls, List.foldl_cons, Call.run]
  rw [free_apply, if_pos hz]
  exact runCalls_free_of_null n _ rfl

/-- C6: `Queue_manager_mq_free` never raises; calling it a second time changes
neither the manager nor the trace, so the second call makes no `dlclose`; and on a
manager whose `mq_lib_handle` is null it changes nothing and makes no `dlclose`. -/
theorem free_idempotent (w : World) :
    (Queue_manager_mq_free w).raised = none ∧
      Queue_manager_mq_free (Queue_manager_mq_free w).world = Queue_manager_mq_free w ∧
      closes (Queue_manager_mq_free (Queue_manager_mq_free w).world).world.trace =
        closes (Queue_manager_mq_free w).world.trace ∧
      (w.pqm.mq_lib_handle = 0 →
        Queue_manager_mq_free w = Result.ok () w ∧
          closes (Queue_manager_mq_free w).world.trace = closes w.trace) := by
  have h2 : Queue_manager_mq_free (Queue_manager_mq_free w).world = Queue_manager_mq_free w := by
    rw [free_of_null _ (free_handle w)]
    rw [free_apply]; split <;> rfl
  refine ⟨?_, h2, by rw [h2], fun hz => ?_⟩
  · rw [free_apply]; split <;> rfl
  · rw [free_of_null w hz]; exact ⟨rfl, rfl⟩

/-- C6, at concrete inputs: freeing a manager on which nothing has been loaded. -/
theorem free_idempotent_witness :
    freshManager.mq_lib_handle = 0 ∧
      Queue_manager_mq_free ⟨freshManager, []⟩ = Result.ok () ⟨freshManager, []⟩ :=
  ⟨rfl, ((free_idempotent ⟨freshManager, []⟩).2.2.2 rfl).1⟩

/-- C7 (as stated, refuted): load, free, load, free on a fresh manager, with a loader
that returns the same handle 4096 at both loads: both loads succeed, and the handle
4096 is passed to `dlclose` twice. -/
theorem handle_closed_twice :
    (Queue_manager_mq_load linux completeLoader ⟨freshManager, []⟩).raised = none ∧
      opens (runCalls [Call.load linux completeLoader, Call.free,
          Call.load linux completeLoader, Call.free] ⟨freshManager, []⟩).trace = [4096, 4096] ∧
      closes (runCalls [Call.load linux completeLoader, Call.free,
          Call.load linux completeLoader, Call.free] ⟨freshManager, []⟩).trace = [4096, 4096] ∧
      List.count 4096 (closes (runCalls [Call.load linux completeLoader, Call.free,
          Call.load linux completeLoader, Call.free] ⟨freshManager, []⟩).trace) = 2 := by
  decide

/-- C7 (amended): after a successful load, any number `n ≥ 1` of frees makes exactly
one `dlclose`, on the handle that `dlopen` returned.  Over any sequence of loads and
frees, started on a manager with an empty trace, a handle is passed to `dlclose` at
most as often as `dlopen` returned it (counting the handle the manager held at the
start as returned once); so a handle that `dlopen` returned once, to a manager that
held none, is closed at most once. -/
theorem handle_released_once :
    (∀ (P : Platform) (dl : DynamicLoader) (w : World) (n : Nat),
      (Queue_manager_mq_load P dl w).raised = none → 1 ≤ n →
        opens (Queue_manager_mq_load P dl w).world.trace =
            opens w.trace ++ [openedHandle P dl w.pqm] ∧
          closes (Queue_manager_mq_load P dl w).world.trace = closes w.trace ∧
          closes (runCalls (List.replicate n Call.free)
              (Queue_manager_mq_load P dl w).world).trace =
            closes w.trace ++ [openedHandle P dl w.pqm]) ∧
    (∀ (cs : List Call) (pqm : QUEUE_MANAGER) (h : Nat),
      List.count h (closes (runCalls cs ⟨pqm, []⟩).trace) ≤
        List.count h (opens (runCalls cs ⟨pqm, []⟩).trace) +
          (if pqm.mq_lib_handle = h then 1 else 0)) ∧
    (∀ (cs : List Call) (pqm : QUEUE_MANAGER) (h : Nat),
      pqm.mq_lib_handle = 0 →
        List.count h (opens (runCalls cs ⟨pqm, []⟩).trace) ≤ 1 →
        List.count h (closes (runCalls cs ⟨pqm, []⟩).trace) ≤ 1) := by
  have hbal : ∀ (cs : List Call) (pqm : QUEUE_MANAGER) (h : Nat),
      List.count h (closes (runCalls cs ⟨pqm, []⟩).trace) +
          (if (runCalls cs ⟨pqm, []⟩).pqm.mq_lib_handle = h ∧ h ≠ 0 then 1 else 0) ≤
        List.count h (opens (runCalls cs ⟨pqm, []⟩).trace) +
          (if pqm.mq_lib_handle = h ∧ h ≠ 0 then 1 else 0) := by
    intro cs pqm
    exact runCalls_balance (fun h => if pqm.mq_lib_handle = h ∧ h ≠ 0 then 1 else 0) cs
      ⟨pqm, []⟩ (fun h => by simp [closes, opens])
  refine ⟨?_, ?_, ?_⟩
  · intro P dl w n hok hn
    refine ⟨(load_trace P dl w).2.1, (load_trace P dl w).1, ?_⟩
    rcases load_handle P dl w with ⟨_, hne, hh⟩ | ⟨hbad, _⟩
    · obtain ⟨k, rfl⟩ : ∃ k, n = k + 1 := ⟨n - 1, by omega⟩
      rw [runCalls_free_succ k _ (by rw [hh]; exact hne)]
      simp only [closes_append, (releaseBanner_quiet _).1, List.append_nil,
        (load_trace P dl w).1, hh]
      rfl
    · exact absurd hok hbad
  · intro cs pqm h
    have := hbal cs pqm h
    split_ifs at this ⊢ <;> omega
  · intro cs pqm h hz hone
    have := hbal cs pqm h
    split_ifs at this <;> omega

/-- C7 (amended), at concrete inputs: a successful load followed by three frees. -/
theorem handle_released_once_witness :
    (Queue_manager_mq_load linux completeLoader ⟨freshManager, []⟩).raised = none ∧
      1 ≤ 3 ∧
      closes (runCalls (List.replicate 3 Call.free)
          (Queue_manager_mq_load linux completeLoader ⟨freshManager, []⟩).world).trace =
        closes [] ++ [openedHandle linux completeLoader freshManager] :=
  ⟨by decide, by decide,
    (handle_released_once.1 linux completeLoader ⟨freshManager, []⟩ 3 (by decide)
      (by decide)).2.2⟩

/-- C8: the registrations made by `Init_wmq` give `WMQ::QueueManager` the instance
methods connect, disconnect, begin, commit, backout, put, open_queue, execute,
comp_code, reason_code, reason, connected? and name, and a singleton method connect;
they give `WMQ::Queue` open, close, put, get and each, and `WMQ::Message` initialize
and clear; and every status accessor of the two classes is registered once, with
arity 0. -/
theorem init_registers_operations :
    (∀ name ∈ ["connect", "disconnect", "begin", "commit", "backout", "put", "open_queue",
        "execute", "comp_code", "reason_code", "reason", "connected?", "name"],
      name ∈ (instanceMethods registrationTable "WMQ::QueueManager").map Prod.fst) ∧
    (∀ name ∈ ["open", "close", "put", "get", "each"],
      name ∈ (instanceMethods registrationTable "WMQ::Queue").map Prod.fst) ∧
    (∀ name ∈ ["initialize", "clear"],
      name ∈ (instanceMethods registrationTable "WMQ::Message").map Prod.fst) ∧
    "connect" ∈ (singletonMethods registrationTable "WMQ::QueueManager").map Prod.fst ∧
    (∀ name ∈ ["comp_code", "reason_code", "reason", "connected?", "name"],
      arities registrationTable "WMQ::QueueManager" name = [0]) ∧
    (∀ name ∈ ["comp_code", "reason_code", "reason", "open?"],
      arities registrationTable "WMQ::Queue" name = [0]) := by
  decide

end WMQ
